import Mathlib

/-
  Verification of the protocol-upgrade transition engine of casper-node
  (execution_engine/src/core/engine_state/upgrade.rs) and the consensus
  era debug dump (node/src/components/consensus/era_supervisor/debug.rs).

  The data model and the two operations under test are shallowly embedded
  below.  Collaborator types that are declared outside the excerpted
  sources (TrackingCopy, ContractPackage version operations, the system
  entry-point tables, Era / HighwayProtocol) are modelled from the spec;
  each such definition carries a doc comment saying so.
-/

namespace Casper

/-- Digest of the global state trie root (a fixed-width hash, modelled as Nat). -/
abbrev Digest := Nat

/-- Address of a stored contract (32-byte hash in the source, modelled as Nat). -/
abbrev ContractHash := Nat

/-- Address of a contract wasm blob (modelled as Nat). -/
abbrev ContractWasmHash := Nat

/-- Era identifier (newtype over u64 in the source). -/
abbrev EraId := Nat

/-- Consensus validator public key (opaque bytes in the source). -/
abbrev PublicKey := Nat

/-- Millisecond timestamp (u64 in the source). -/
abbrev Timestamp := Nat

/-- Semantic protocol version triple, as in casper_types::ProtocolVersion. -/
structure ProtocolVersion where
  major : Nat
  minor : Nat
  patch : Nat
deriving DecidableEq, Repr

/-- Global-state key.  The source has more variants; the upgrade path only
constructs Key::Hash, and the extra variants stand in for the rest. -/
inductive Key where
  | hash (addr : Nat)
  | account (addr : Nat)
  | uref (addr : Nat)
deriving DecidableEq, Repr

/-- Modelled from the spec: an entry-point table is an opaque value that is a
deterministic function of the contract's logical identity (the concrete table
type lives in casper_types, outside the excerpted sources). -/
structure EntryPoints where
  table : List String
deriving DecidableEq, Repr

/-- Stored contract, as in casper_types::Contract: package address, code-blob
address, named keys, entry points, protocol version. -/
structure Contract where
  contract_package_hash : ContractHash
  contract_wasm_hash : ContractWasmHash
  named_keys : List (String × Key)
  entry_points : EntryPoints
  protocol_version : ProtocolVersion
deriving DecidableEq, Repr

/-- Mirror of Contract::new with the source's argument order. -/
def Contract.new (contract_package_hash : ContractHash)
    (contract_wasm_hash : ContractWasmHash) (named_keys : List (String × Key))
    (entry_points : EntryPoints) (protocol_version : ProtocolVersion) : Contract :=
  { contract_package_hash, contract_wasm_hash, named_keys, entry_points,
    protocol_version }

/-- Mirror of Contract::set_protocol_version. -/
def Contract.set_protocol_version (c : Contract) (pv : ProtocolVersion) : Contract :=
  { c with protocol_version := pv }

/-- Modelled from the spec: a ContractPackage is a registry mapping a
major-version identifier to a contract address plus an enabled/disabled flag
(the concrete type lives in casper_types, outside the excerpted sources). -/
structure ContractPackage where
  versions : List (Nat × ContractHash × Bool)
deriving DecidableEq, Repr

/-- Lookup in an association list keyed by decidable equality. -/
def alookup {κ α : Type} [DecidableEq κ] : List (κ × α) → κ → Option α
  | [], _ => none
  | e :: rest, k => if e.1 = k then some e.2 else alookup rest k

/-- Replace the value at a key in an association list, appending when absent. -/
def aupdate {κ α : Type} [DecidableEq κ] : List (κ × α) → κ → α → List (κ × α)
  | [], k, v => [(k, v)]
  | e :: rest, k, v => if e.1 = k then (k, v) :: rest else e :: aupdate rest k v

/-- Modelled from the spec: disabling a contract address in its package
succeeds exactly when that address is a currently-enabled version; the slot is
soft-disabled (flag flipped), never removed.  Disabling an address that is
already disabled or absent is an error, not a no-op. -/
def ContractPackage.disable_contract_version (p : ContractPackage)
    (h : ContractHash) : Option ContractPackage :=
  if p.versions.any (fun e => e.2.1 = h ∧ e.2.2 = true) then
    some ⟨p.versions.map (fun e => if e.2.1 = h then (e.1, e.2.1, false) else e)⟩
  else
    none

/-- Modelled from the spec: registering a contract address under a major
version marks that slot enabled, replacing any previous entry for that major
version and appending otherwise. -/
def ContractPackage.insert_contract_version (p : ContractPackage) (major : Nat)
    (h : ContractHash) : ContractPackage :=
  ⟨aupdate p.versions major (h, true)⟩

/-- The enabled/disabled slot registered in a package for a major version. -/
def ContractPackage.lookupVersion (p : ContractPackage) (major : Nat) :
    Option (ContractHash × Bool) :=
  alookup p.versions major

/-- Tagged union of persistable values, as in casper_types::StoredValue; the
variants relevant to the upgrade path are Contract and ContractPackage, with
clValue standing in for every other variant. -/
inductive StoredValue where
  | contract (c : Contract)
  | contractPackage (p : ContractPackage)
  | clValue (bytes : List Nat)
deriving DecidableEq, Repr

/-- One entry of the ordered effect log of a tracking copy. -/
inductive Effect where
  | read (k : Key)
  | write (k : Key) (v : StoredValue)
deriving DecidableEq, Repr

/-- Modelled from the spec: the tracking copy is an in-memory overlay over one
fixed pre-state root: a snapshot of the persistent store, a set of keys whose
stored bytes fail to deserialize (surfacing the codec errors of §7), a write
buffer, and the ordered effect log. -/
structure TrackingCopy where
  store : List (Key × StoredValue)
  badKeys : List Key
  buffer : List (Key × StoredValue)
  effects : List Effect
deriving DecidableEq, Repr

/-- The value a tracking-copy read would return at a key: the write buffer is
consulted first, falling back to the store snapshot, where a corrupt key
surfaces a codec error. -/
def readResult (tc : TrackingCopy) (k : Key) : Except Unit (Option StoredValue) :=
  match alookup tc.buffer k with
  | some v => Except.ok (some v)
  | none =>
    if k ∈ tc.badKeys then Except.error ()
    else Except.ok (alookup tc.store k)

/-- Modelled from the spec: read(key) consults the write buffer first, falls
back to the persistent store at the fixed pre-state root, and records the
access in the effect log regardless of hit/miss. -/
def TrackingCopy.read (tc : TrackingCopy) (k : Key) :
    Except Unit (Option StoredValue) × TrackingCopy :=
  (readResult tc k, { tc with effects := tc.effects ++ [Effect.read k] })

/-- Modelled from the spec: write(key, value) replaces any buffered value for
that key and appends a write record; it never touches the persistent store. -/
def TrackingCopy.write (tc : TrackingCopy) (k : Key) (v : StoredValue) :
    TrackingCopy :=
  { tc with buffer := aupdate tc.buffer k v,
            effects := tc.effects ++ [Effect.write k v] }

/-- Outcomes of a failed protocol upgrade, as in ProtocolUpgradeError. -/
inductive ProtocolUpgradeError where
  | invalidUpgradeConfig
  | unableToRetrieveSystemContract (name : String)
  | unableToRetrieveSystemContractPackage (name : String)
  | failedToDisablePreviousVersion (name : String)
  | bytesrepr (code : Nat)
  | failedToCreateSystemRegistry
deriving DecidableEq, Repr

/-- Name of the currency-issuance system contract (casper_types::system::MINT). -/
def MINT : String := "mint"

/-- Name of the validator-auction system contract. -/
def AUCTION : String := "auction"

/-- Name of the fee-handling system contract. -/
def HANDLE_PAYMENT : String := "handle_payment"

/-- Name of the payment system contract. -/
def STANDARD_PAYMENT : String := "standard_payment"

/-- Modelled from the spec: the mint entry-point table, a deterministic
function of the contract's logical identity (defined in casper_types::system::mint,
outside the excerpted sources). -/
def mint_entry_points : EntryPoints := ⟨[MINT]⟩

/-- Modelled from the spec: the auction entry-point table. -/
def auction_entry_points : EntryPoints := ⟨[AUCTION]⟩

/-- Modelled from the spec: the handle-payment entry-point table. -/
def handle_payment_entry_points : EntryPoints := ⟨[HANDLE_PAYMENT]⟩

/-- Modelled from the spec: the standard-payment entry-point table. -/
def standard_payment_entry_points : EntryPoints := ⟨[STANDARD_PAYMENT]⟩

/-- The system upgrader (SystemUpgrader).  The Rust struct also holds the
shared tracking-copy handle; here the tracking copy is threaded explicitly
through each method, the spec's recommended reframing of the Rc<RefCell<..>>
handle as one sequential call tree. -/
structure SystemUpgrader where
  new_protocol_version : ProtocolVersion
deriving DecidableEq, Repr

/-- Mirror of SystemUpgrader::new. -/
def SystemUpgrader.new (pv : ProtocolVersion) : SystemUpgrader := ⟨pv⟩

/-- Shallow embedding of SystemUpgrader::store_contract.  Returns the tracking
copy as left by the call (errors still keep the reads recorded by the shared
handle) together with the error, if any. -/
def SystemUpgrader.store_contract (u : SystemUpgrader) (tc : TrackingCopy)
    (contract_hash : ContractHash) (contract_name : String)
    (entry_points : EntryPoints) : TrackingCopy × Option ProtocolUpgradeError :=
  let contract_key := Key.hash contract_hash
  let r1 := tc.read contract_key
  match r1.1, r1.2 with
  | Except.error _, tc1 =>
    (tc1, some (ProtocolUpgradeError.unableToRetrieveSystemContract contract_name))
  | Except.ok none, tc1 =>
    (tc1, some (ProtocolUpgradeError.unableToRetrieveSystemContract contract_name))
  | Except.ok (some (StoredValue.contract contract)), tc1 =>
    let contract_package_key := Key.hash contract.contract_package_hash
    let r2 := tc1.read contract_package_key
    match r2.1, r2.2 with
    | Except.error _, tc2 =>
      (tc2, some (ProtocolUpgradeError.unableToRetrieveSystemContractPackage contract_name))
    | Except.ok none, tc2 =>
      (tc2, some (ProtocolUpgradeError.unableToRetrieveSystemContractPackage contract_name))
    | Except.ok (some (StoredValue.contractPackage contract_package)), tc2 =>
      match contract_package.disable_contract_version contract_hash with
      | none =>
        (tc2, some (ProtocolUpgradeError.failedToDisablePreviousVersion contract_name))
      | some contract_package =>
        let contract := contract.set_protocol_version u.new_protocol_version
        let new_contract := Contract.new contract.contract_package_hash
          contract.contract_wasm_hash contract.named_keys entry_points
          u.new_protocol_version
        let tc3 := tc2.write contract_key (StoredValue.contract new_contract)
        let contract_package := contract_package.insert_contract_version
          u.new_protocol_version.major contract_hash
        let tc4 := tc3.write contract_package_key
          (StoredValue.contractPackage contract_package)
        (tc4, none)
    | Except.ok (some _), tc2 =>
      (tc2, some (ProtocolUpgradeError.unableToRetrieveSystemContractPackage contract_name))
  | Except.ok (some _), tc1 =>
    (tc1, some (ProtocolUpgradeError.unableToRetrieveSystemContract contract_name))

/-- Shallow embedding of SystemUpgrader::upgrade_system_contracts_major_version:
migrate mint, auction, handle-payment and standard-payment, in that order,
short-circuiting on the first error. -/
def SystemUpgrader.upgrade_system_contracts_major_version (u : SystemUpgrader)
    (tc : TrackingCopy) (mint_hash auction_hash handle_payment_hash
    standard_payment_hash : ContractHash) :
    TrackingCopy × Option ProtocolUpgradeError :=
  match u.store_contract tc mint_hash MINT mint_entry_points with
  | (tc1, some e) => (tc1, some e)
  | (tc1, none) =>
    match u.store_contract tc1 auction_hash AUCTION auction_entry_points with
    | (tc2, some e) => (tc2, some e)
    | (tc2, none) =>
      match u.store_contract tc2 handle_payment_hash HANDLE_PAYMENT
          handle_payment_entry_points with
      | (tc3, some e) => (tc3, some e)
      | (tc3, none) =>
        match u.store_contract tc3 standard_payment_hash STANDARD_PAYMENT
            standard_payment_entry_points with
        | (tc4, some e) => (tc4, some e)
        | (tc4, none) => (tc4, none)

/-- Configuration of a protocol upgrade (UpgradeConfig).  The Rust struct's
Ratio of u64 round-seigniorage rate is modelled as a numerator/denominator
pair and the BTreeMap of overrides as an association list. -/
structure UpgradeConfig where
  pre_state_hash : Digest
  current_protocol_version : ProtocolVersion
  new_protocol_version : ProtocolVersion
  activation_point : Option EraId
  new_validator_slots : Option Nat
  new_auction_delay : Option Nat
  new_locked_funds_period_millis : Option Nat
  new_round_seigniorage_rate : Option (Nat × Nat)
  new_unbonding_delay : Option Nat
  global_state_update : List (Key × StoredValue)
deriving DecidableEq, Repr

/-- Mirror of UpgradeConfig::new with the source's argument order. -/
def UpgradeConfig.new (pre_state_hash : Digest)
    (current_protocol_version new_protocol_version : ProtocolVersion)
    (activation_point : Option EraId) (new_validator_slots : Option Nat)
    (new_auction_delay : Option Nat) (new_locked_funds_period_millis : Option Nat)
    (new_round_seigniorage_rate : Option (Nat × Nat))
    (new_unbonding_delay : Option Nat)
    (global_state_update : List (Key × StoredValue)) : UpgradeConfig :=
  { pre_state_hash, current_protocol_version, new_protocol_version,
    activation_point, new_validator_slots, new_auction_delay,
    new_locked_funds_period_millis, new_round_seigniorage_rate,
    new_unbonding_delay, global_state_update }

/-- Mirror of UpgradeConfig::with_pre_state_hash; the Rust setter mutates in
place, embedded here as returning the updated config. -/
def UpgradeConfig.with_pre_state_hash (cfg : UpgradeConfig)
    (pre_state_hash : Digest) : UpgradeConfig :=
  { cfg with pre_state_hash := pre_state_hash }

/-- Modelled from the spec: the internal state of a HighwayProtocol consensus
instance is opaque to the debug dump (the type lives in the consensus
component, outside the excerpted sources). -/
structure HighwayProtocol where
  state : Nat
deriving DecidableEq, Repr

/-- Modelled from the spec: the boxed dyn ConsensusProtocol held by an era; a
closed sum with a variant per concrete protocol implementation, replacing the
runtime downcast of the source. -/
inductive ConsensusBox where
  | highway (p : HighwayProtocol)
  | otherProtocol (tag : Nat)
deriving DecidableEq, Repr

/-- The as_any().downcast_ref::<HighwayProtocol>() probe of the source,
expressed on the closed sum. -/
def ConsensusBox.downcastHighway : ConsensusBox → Option HighwayProtocol
  | ConsensusBox.highway p => some p
  | ConsensusBox.otherProtocol _ => none

/-- Modelled from the spec: the per-era state the debug dump borrows from
(the Era struct lives in the era supervisor, outside the excerpted sources);
only the fields dump_era reads are modelled. -/
structure Era where
  consensus : ConsensusBox
  start_time : Timestamp
  start_height : Nat
  new_faulty : List PublicKey
  faulty : List PublicKey
  cannot_propose : List PublicKey
  accusations : List PublicKey
  validators : List (PublicKey × Nat)
deriving DecidableEq, Repr

/-- Debug dump of an era (EraDump); the source borrows the era's collections,
embedded here by value. -/
structure EraDump where
  id : EraId
  start_time : Timestamp
  start_height : Nat
  new_faulty : List PublicKey
  faulty : List PublicKey
  cannot_propose : List PublicKey
  accusations : List PublicKey
  validators : List (PublicKey × Nat)
deriving DecidableEq, Repr

/-- Shallow embedding of EraDump::dump_era. -/
def EraDump.dump_era (era : Era) (era_id : EraId) : Except String EraDump :=
  match era.consensus.downcastHighway with
  | none => Except.error
      "could not downcast ConsensusProtocol into HighwayProtocol"
  | some _ => Except.ok
      { id := era_id
        start_time := era.start_time
        start_height := era.start_height
        new_faulty := era.new_faulty
        faulty := era.faulty
        cannot_propose := era.cannot_propose
        accusations := era.accusations
        validators := era.validators }

/-
  Helper views of a tracking copy, used to state the claims.
-/

/-- The contract a tracking-copy read at a key returns, when the read neither
errors nor misses nor yields another variant. -/
def contractAt (tc : TrackingCopy) (k : Key) : Option Contract :=
  match readResult tc k with
  | Except.ok (some (StoredValue.contract c)) => some c
  | _ => none

/-- The contract package a tracking-copy read at a key returns, when the read
neither errors nor misses nor yields another variant. -/
def packageAt (tc : TrackingCopy) (k : Key) : Option ContractPackage :=
  match readResult tc k with
  | Except.ok (some (StoredValue.contractPackage p)) => some p
  | _ => none

/-- Reading ignores the effect log, so appending effects never changes the
value a read returns. -/
@[simp]
lemma readResult_effects (tc : TrackingCopy) (e : List Effect) (k : Key) :
    readResult { tc with effects := e } k = readResult tc k := rfl

/-- The new contract value store_contract writes for an old contract c. -/
def upgradedContract (c : Contract) (eps : EntryPoints)
    (npv : ProtocolVersion) : StoredValue :=
  StoredValue.contract
    (Contract.new c.contract_package_hash c.contract_wasm_hash c.named_keys eps npv)

/-- The new package value store_contract writes for a disabled package q. -/
def upgradedPackage (q : ContractPackage) (h : ContractHash)
    (npv : ProtocolVersion) : StoredValue :=
  StoredValue.contractPackage (q.insert_contract_version npv.major h)

/-- Exhaustive characterization of one store_contract run: exactly one of the
three error exits or the success exit happens, and in each case the resulting
tracking copy is determined by the two read views and the disable step. -/
lemma store_contract_run (u : SystemUpgrader) (tc : TrackingCopy)
    (h : ContractHash) (name : String) (eps : EntryPoints) :
    (contractAt tc (Key.hash h) = none ∧
      u.store_contract tc h name eps =
        ({ tc with effects := tc.effects ++ [Effect.read (Key.hash h)] },
         some (ProtocolUpgradeError.unableToRetrieveSystemContract name))) ∨
    (∃ c, contractAt tc (Key.hash h) = some c ∧
      packageAt tc (Key.hash c.contract_package_hash) = none ∧
      u.store_contract tc h name eps =
        ({ tc with effects := tc.effects ++ [Effect.read (Key.hash h),
            Effect.read (Key.hash c.contract_package_hash)] },
         some (ProtocolUpgradeError.unableToRetrieveSystemContractPackage name))) ∨
    (∃ c p, contractAt tc (Key.hash h) = some c ∧
      packageAt tc (Key.hash c.contract_package_hash) = some p ∧
      p.disable_contract_version h = none ∧
      u.store_contract tc h name eps =
        ({ tc with effects := tc.effects ++ [Effect.read (Key.hash h),
            Effect.read (Key.hash c.contract_package_hash)] },
         some (ProtocolUpgradeError.failedToDisablePreviousVersion name))) ∨
    (∃ c p q, contractAt tc (Key.hash h) = some c ∧
      packageAt tc (Key.hash c.contract_package_hash) = some p ∧
      p.disable_contract_version h = some q ∧
      c.contract_package_hash ≠ h ∧
      u.store_contract tc h name eps =
        ({ tc with
            buffer := aupdate (aupdate tc.buffer (Key.hash h)
                (upgradedContract c eps u.new_protocol_version))
              (Key.hash c.contract_package_hash)
              (upgradedPackage q h u.new_protocol_version),
            effects := tc.effects ++ [Effect.read (Key.hash h),
              Effect.read (Key.hash c.contract_package_hash),
              Effect.write (Key.hash h)
                (upgradedContract c eps u.new_protocol_version),
              Effect.write (Key.hash c.contract_package_hash)
                (upgradedPackage q h u.new_protocol_version)] },
         none)) := by
  unfold SystemUpgrader.store_contract contractAt packageAt
  simp only [TrackingCopy.read, readResult_effects]
  cases hr1 : readResult tc (Key.hash h) with
  | error e =>
    left
    simp [hr1]
  | ok ov =>
    cases ov with
    | none =>
      left
      simp [hr1]
    | some sv =>
      cases sv with
      | contractPackage p =>
        left
        simp [hr1]
      | clValue bs =>
        left
        simp [hr1]
      | contract c =>
        cases hr2 : readResult tc (Key.hash c.contract_package_hash) with
        | error e =>
          right; left
          refine ⟨c, by simp [hr1], by simp [hr2], ?_⟩
          simp [hr1, hr2]
        | ok ov2 =>
          cases ov2 with
          | none =>
            right; left
            refine ⟨c, by simp [hr1], by simp [hr2], ?_⟩
            simp [hr1, hr2]
          | some sv2 =>
            cases sv2 with
            | contract c2 =>
              right; left
              refine ⟨c, by simp [hr1], by simp [hr2], ?_⟩
              simp [hr1, hr2]
            | clValue bs =>
              right; left
              refine ⟨c, by simp [hr1], by simp [hr2], ?_⟩
              simp [hr1, hr2]
            | contractPackage p =>
              cases hd : p.disable_contract_version h with
              | none =>
                right; right; left
                refine ⟨c, p, by simp [hr1], by simp [hr2], hd, ?_⟩
                simp [hr1, hr2, hd]
              | some q =>
                right; right; right
                have hne : c.contract_package_hash ≠ h := by
                  intro heq
                  rw [heq, hr1] at hr2
                  cases hr2
                refine ⟨c, p, q, by simp [hr1], by simp [hr2], hd, hne, ?_⟩
                simp [hr1, hr2, hd, TrackingCopy.write, upgradedContract,
                  upgradedPackage, Contract.set_protocol_version, Contract.new]

/-- Updating and then looking up the same key yields the written value. -/
lemma alookup_aupdate_self {κ α : Type} [DecidableEq κ] (l : List (κ × α))
    (k : κ) (v : α) : alookup (aupdate l k v) k = some v := by
  induction l with
  | nil => simp [aupdate, alookup]
  | cons e rest ih =>
    by_cases he : e.1 = k
    · simp [aupdate, he, alookup]
    · simp [aupdate, he, alookup, ih]

/-- Updating one key leaves the lookup of every other key unchanged. -/
lemma alookup_aupdate_ne {κ α : Type} [DecidableEq κ] (l : List (κ × α))
    (k k' : κ) (v : α) (hne : k ≠ k') :
    alookup (aupdate l k v) k' = alookup l k' := by
  induction l with
  | nil => simp [aupdate, alookup, hne]
  | cons e rest ih =>
    by_cases he : e.1 = k
    · have h2 : e.1 ≠ k' := he ▸ hne
      simp [aupdate, he, alookup, hne, h2]
    · simp [aupdate, he, alookup, ih]

/-- Success corollary of store_contract_run: a run that returns no error took
the success exit, and the final tracking copy is determined exactly. -/
lemma store_contract_success_shape (u : SystemUpgrader) (tc : TrackingCopy)
    (h : ContractHash) (name : String) (eps : EntryPoints) (tcf : TrackingCopy)
    (hs : u.store_contract tc h name eps = (tcf, none)) :
    ∃ c p q, contractAt tc (Key.hash h) = some c ∧
      packageAt tc (Key.hash c.contract_package_hash) = some p ∧
      p.disable_contract_version h = some q ∧
      c.contract_package_hash ≠ h ∧
      tcf = { tc with
        buffer := aupdate (aupdate tc.buffer (Key.hash h)
            (upgradedContract c eps u.new_protocol_version))
          (Key.hash c.contract_package_hash)
          (upgradedPackage q h u.new_protocol_version),
        effects := tc.effects ++ [Effect.read (Key.hash h),
          Effect.read (Key.hash c.contract_package_hash),
          Effect.write (Key.hash h)
            (upgradedContract c eps u.new_protocol_version),
          Effect.write (Key.hash c.contract_package_hash)
            (upgradedPackage q h u.new_protocol_version)] } := by
  rcases store_contract_run u tc h name eps with
    ⟨_, heq⟩ | ⟨c, _, _, heq⟩ | ⟨c, p, _, _, _, heq⟩ | ⟨c, p, q, hc, hp, hd, hne, heq⟩
  · rw [heq] at hs; cases hs
  · rw [heq] at hs; cases hs
  · rw [heq] at hs; cases hs
  · rw [heq] at hs
    exact ⟨c, p, q, hc, hp, hd, hne, (Prod.mk.injEq _ _ _ _ ▸ hs).1.symm⟩

/-- Error corollary of store_contract_run: a run that returns an error took
one of the three error exits, each of which leaves everything but the effect
log unchanged and appends only read records. -/
lemma store_contract_error_shape (u : SystemUpgrader) (tc : TrackingCopy)
    (h : ContractHash) (name : String) (eps : EntryPoints) (tcf : TrackingCopy)
    (e : ProtocolUpgradeError)
    (hs : u.store_contract tc h name eps = (tcf, some e)) :
    tcf.buffer = tc.buffer ∧ tcf.store = tc.store ∧ tcf.badKeys = tc.badKeys ∧
    (tcf.effects = tc.effects ++ [Effect.read (Key.hash h)] ∨
      ∃ pk, tcf.effects = tc.effects ++ [Effect.read (Key.hash h), Effect.read pk]) := by
  rcases store_contract_run u tc h name eps with
    ⟨_, heq⟩ | ⟨c, _, _, heq⟩ | ⟨c, p, _, _, _, heq⟩ | ⟨c, p, q, _, _, _, _, heq⟩
  · rw [heq] at hs
    obtain ⟨h1, _⟩ := Prod.mk.injEq _ _ _ _ ▸ hs
    rw [← h1]
    exact ⟨rfl, rfl, rfl, Or.inl rfl⟩
  · rw [heq] at hs
    obtain ⟨h1, _⟩ := Prod.mk.injEq _ _ _ _ ▸ hs
    rw [← h1]
    exact ⟨rfl, rfl, rfl, Or.inr ⟨_, rfl⟩⟩
  · rw [heq] at hs
    obtain ⟨h1, _⟩ := Prod.mk.injEq _ _ _ _ ▸ hs
    rw [← h1]
    exact ⟨rfl, rfl, rfl, Or.inr ⟨_, rfl⟩⟩
  · rw [heq] at hs
    obtain ⟨_, h2⟩ := Prod.mk.injEq _ _ _ _ ▸ hs
    cases h2

/-- A successful disable keeps every slot of the package, flipping the flag of
exactly the slots carrying the disabled hash. -/
lemma disable_versions (p q : ContractPackage) (h : ContractHash)
    (hd : p.disable_contract_version h = some q) :
    q.versions = p.versions.map
      (fun e => if e.2.1 = h then (e.1, e.2.1, false) else e) := by
  unfold ContractPackage.disable_contract_version at hd
  split at hd
  · exact (congrArg ContractPackage.versions (Option.some.inj hd)).symm
  · cases hd

/-
  Claim theorems.
-/

/-- C1: a successful store_contract writes the new Contract at the same key
the old contract was read from, keeping package address, code-blob address
and named keys, and replacing only the entry-point table (with the supplied
one) and the protocol version (with the upgrader's new version). -/
theorem store_contract_address_stability (u : SystemUpgrader)
    (tc : TrackingCopy) (h : ContractHash) (name : String) (eps : EntryPoints)
    (tcf : TrackingCopy) (c : Contract)
    (hs : u.store_contract tc h name eps = (tcf, none))
    (hc : contractAt tc (Key.hash h) = some c) :
    ∃ nc : Contract,
      alookup tcf.buffer (Key.hash h) = some (StoredValue.contract nc) ∧
      Effect.write (Key.hash h) (StoredValue.contract nc) ∈ tcf.effects ∧
      nc.contract_package_hash = c.contract_package_hash ∧
      nc.contract_wasm_hash = c.contract_wasm_hash ∧
      nc.named_keys = c.named_keys ∧
      nc.entry_points = eps ∧
      nc.protocol_version = u.new_protocol_version := by
  obtain ⟨c', p, q, hc', hp, hd, hne, htcf⟩ :=
    store_contract_success_shape u tc h name eps tcf hs
  obtain rfl : c = c' := by rw [hc] at hc'; exact Option.some.inj hc'
  refine ⟨Contract.new c.contract_package_hash c.contract_wasm_hash
    c.named_keys eps u.new_protocol_version, ?_, ?_, rfl, rfl, rfl, rfl, rfl⟩
  · rw [htcf]
    have hkne : Key.hash c.contract_package_hash ≠ Key.hash h := by
      intro hk
      exact hne (by injection hk)
    rw [show ({ tc with
        buffer := aupdate (aupdate tc.buffer (Key.hash h)
            (upgradedContract c eps u.new_protocol_version))
          (Key.hash c.contract_package_hash)
          (upgradedPackage q h u.new_protocol_version),
        effects := tc.effects ++ [Effect.read (Key.hash h),
          Effect.read (Key.hash c.contract_package_hash),
          Effect.write (Key.hash h)
            (upgradedContract c eps u.new_protocol_version),
          Effect.write (Key.hash c.contract_package_hash)
            (upgradedPackage q h u.new_protocol_version)] } : TrackingCopy).buffer =
      aupdate (aupdate tc.buffer (Key.hash h)
          (upgradedContract c eps u.new_protocol_version))
        (Key.hash c.contract_package_hash)
        (upgradedPackage q h u.new_protocol_version) from rfl]
    rw [alookup_aupdate_ne _ _ _ _ hkne, alookup_aupdate_self]
    rfl
  · rw [htcf]
    simp [upgradedContract]

/-- C2: a successful store_contract writes back, at the package key, the old
package first with the contract's current hash soft-disabled (slots kept, not
removed) and then with the new protocol major version registered, enabled,
for that same hash. -/
theorem store_contract_version_monotonicity (u : SystemUpgrader)
    (tc : TrackingCopy) (h : ContractHash) (name : String) (eps : EntryPoints)
    (tcf : TrackingCopy) (c : Contract) (p : ContractPackage)
    (hs : u.store_contract tc h name eps = (tcf, none))
    (hc : contractAt tc (Key.hash h) = some c)
    (hp : packageAt tc (Key.hash c.contract_package_hash) = some p) :
    ∃ q : ContractPackage,
      p.disable_contract_version h = some q ∧
      alookup tcf.buffer (Key.hash c.contract_package_hash) =
        some (StoredValue.contractPackage
          (q.insert_contract_version u.new_protocol_version.major h)) ∧
      (∀ m hh b, (m, hh, b) ∈ p.versions →
        (m, hh, b) ∈ q.versions ∨ (hh = h ∧ (m, hh, false) ∈ q.versions)) ∧
      (∀ m b, (m, h, b) ∈ q.versions → b = false) ∧
      (q.insert_contract_version u.new_protocol_version.major h).lookupVersion
        u.new_protocol_version.major = some (h, true) := by
  obtain ⟨c', p', q, hc', hp', hd, hne, htcf⟩ :=
    store_contract_success_shape u tc h name eps tcf hs
  obtain rfl : c = c' := by rw [hc] at hc'; exact Option.some.inj hc'
  obtain rfl : p = p' := by rw [hp] at hp'; exact Option.some.inj hp'
  have hq := disable_versions p q h hd
  refine ⟨q, hd, ?_, ?_, ?_, ?_⟩
  · rw [htcf]
    rw [show ({ tc with
        buffer := aupdate (aupdate tc.buffer (Key.hash h)
            (upgradedContract c eps u.new_protocol_version))
          (Key.hash c.contract_package_hash)
          (upgradedPackage q h u.new_protocol_version),
        effects := tc.effects ++ [Effect.read (Key.hash h),
          Effect.read (Key.hash c.contract_package_hash),
          Effect.write (Key.hash h)
            (upgradedContract c eps u.new_protocol_version),
          Effect.write (Key.hash c.contract_package_hash)
            (upgradedPackage q h u.new_protocol_version)] } : TrackingCopy).buffer =
      aupdate (aupdate tc.buffer (Key.hash h)
          (upgradedContract c eps u.new_protocol_version))
        (Key.hash c.contract_package_hash)
        (upgradedPackage q h u.new_protocol_version) from rfl]
    rw [alookup_aupdate_self]
    rfl
  · intro m hh b hmem
    rw [hq]
    by_cases hhh : hh = h
    · right
      refine ⟨hhh, ?_⟩
      have := List.mem_map_of_mem
        (fun e => if e.2.1 = h then (e.1, e.2.1, false) else e) hmem
      simpa [hhh] using this
    · left
      have := List.mem_map_of_mem
        (fun e => if e.2.1 = h then (e.1, e.2.1, false) else e) hmem
      simpa [hhh] using this
  · intro m b hmem
    rw [hq] at hmem
    obtain ⟨e, hem, hee⟩ := List.mem_map.mp hmem
    by_cases heh : e.2.1 = h
    · simp only [heh, if_pos] at hee
      exact ((Prod.mk.injEq _ _ _ _).mp
        ((Prod.mk.injEq _ _ _ _).mp hee).2).2.symm
    · rw [if_neg heh] at hee
      exact absurd (congrArg (fun x => x.2.1) hee) (by simpa using heh)
  · unfold ContractPackage.insert_contract_version ContractPackage.lookupVersion
    exact alookup_aupdate_self _ _ _

/-- C4: store_contract reports UnableToRetrieveSystemContract exactly when the
read at the contract key errors, misses, or yields a non-Contract variant, and
UnableToRetrieveSystemContractPackage exactly when the contract read succeeds
but the read at the package key derived from it errors, misses, or yields a
non-ContractPackage variant. -/
theorem store_contract_retrieval_errors (u : SystemUpgrader)
    (tc : TrackingCopy) (h : ContractHash) (name : String) (eps : EntryPoints) :
    ((u.store_contract tc h name eps).2 =
        some (ProtocolUpgradeError.unableToRetrieveSystemContract name) ↔
      contractAt tc (Key.hash h) = none) ∧
    ((u.store_contract tc h name eps).2 =
        some (ProtocolUpgradeError.unableToRetrieveSystemContractPackage name) ↔
      ∃ c, contractAt tc (Key.hash h) = some c ∧
        packageAt tc (Key.hash c.contract_package_hash) = none) := by
  rcases store_contract_run u tc h name eps with
    ⟨hnone, heq⟩ | ⟨c, hc, hpn, heq⟩ | ⟨c, p, hc, hp, hd, heq⟩ |
    ⟨c, p, q, hc, hp, hd, hne, heq⟩
  · rw [heq]
    constructor
    · simp [hnone]
    · simp [hnone]
  · rw [heq]
    constructor
    · simp [hc]
    · simp [hc, hpn]
  · rw [heq]
    constructor
    · simp [hc]
    · simp [hc, hp]
  · rw [heq]
    constructor
    · simp [hc]
    · simp [hc, hp]

/-- C5: store_contract reports FailedToDisablePreviousVersion exactly when
both reads succeed with the right variants but the contract's current hash is
not a currently-enabled version of its package; and disabling fails precisely
when every slot carrying that hash is disabled or the hash is absent, so an
already-disabled or absent hash is an error, never a no-op. -/
theorem store_contract_disable_failure (u : SystemUpgrader)
    (tc : TrackingCopy) (h : ContractHash) (name : String) (eps : EntryPoints) :
    ((u.store_contract tc h name eps).2 =
        some (ProtocolUpgradeError.failedToDisablePreviousVersion name) ↔
      ∃ c p, contractAt tc (Key.hash h) = some c ∧
        packageAt tc (Key.hash c.contract_package_hash) = some p ∧
        p.disable_contract_version h = none) ∧
    (∀ p : ContractPackage, p.disable_contract_version h = none ↔
      ∀ m b, (m, h, b) ∈ p.versions → b = false) := by
  constructor
  · rcases store_contract_run u tc h name eps with
      ⟨hnone, heq⟩ | ⟨c, hc, hpn, heq⟩ | ⟨c, p, hc, hp, hd, heq⟩ |
      ⟨c, p, q, hc, hp, hd, hne, heq⟩
    · rw [heq]
      simp [hnone]
    · rw [heq]
      simp [hc, hpn]
    · rw [heq]
      simp [hc, hp, hd]
    · rw [heq]
      simp [hc, hp, hd]
  · intro p
    unfold ContractPackage.disable_contract_version
    constructor
    · intro hnone m b hmem
      by_contra hb
      have hb' : b = true := by cases b <;> simp_all
      have hany : p.versions.any (fun e => decide (e.2.1 = h ∧ e.2.2 = true)) = true := by
        rw [List.any_eq_true]
        exact ⟨(m, h, b), hmem, by simp [hb']⟩
      rw [if_pos hany] at hnone
      cases hnone
    · intro hall
      rw [if_neg]
      intro hany
      rw [List.any_eq_true] at hany
      obtain ⟨e, hem, hee⟩ := hany
      rw [decide_eq_true_eq] at hee
      obtain ⟨he1, he2⟩ := hee
      have := hall e.1 e.2.2 (by
        have : e = (e.1, e.2.1, e.2.2) := rfl
        rw [this, he1] at hem
        exact hem)
      rw [this] at he2
      cases he2

/-- C6: a successful store_contract performs, through the tracking copy,
exactly one read and one write at the contract key and at the distinct package
key, appended to the effect log in that order, updates the write buffer at
exactly those two keys, and leaves the store snapshot and corrupt-key set
untouched. -/
theorem store_contract_effects_exact (u : SystemUpgrader) (tc : TrackingCopy)
    (h : ContractHash) (name : String) (eps : EntryPoints) (tcf : TrackingCopy)
    (c : Contract)
    (hs : u.store_contract tc h name eps = (tcf, none))
    (hc : contractAt tc (Key.hash h) = some c) :
    Key.hash c.contract_package_hash ≠ Key.hash h ∧
    ∃ nc np : StoredValue,
      tcf.effects = tc.effects ++
        [Effect.read (Key.hash h), Effect.read (Key.hash c.contract_package_hash),
         Effect.write (Key.hash h) nc,
         Effect.write (Key.hash c.contract_package_hash) np] ∧
      tcf.buffer = aupdate (aupdate tc.buffer (Key.hash h) nc)
        (Key.hash c.contract_package_hash) np ∧
      tcf.store = tc.store ∧ tcf.badKeys = tc.badKeys := by
  obtain ⟨c', p, q, hc', hp, hd, hne, htcf⟩ :=
    store_contract_success_shape u tc h name eps tcf hs
  obtain rfl : c = c' := by rw [hc] at hc'; exact Option.some.inj hc'
  refine ⟨?_, upgradedContract c eps u.new_protocol_version,
    upgradedPackage q h u.new_protocol_version, ?_, ?_, ?_, ?_⟩
  · intro hk
    exact hne (by injection hk)
  · rw [htcf]
  · rw [htcf]
  · rw [htcf]
  · rw [htcf]

/-- C9: whenever store_contract returns an error, the write buffer, the store
snapshot and the corrupt-key set are exactly as at call entry; only one or two
read records were appended to the effect log, so no write happened. -/
theorem store_contract_error_no_write (u : SystemUpgrader) (tc : TrackingCopy)
    (h : ContractHash) (name : String) (eps : EntryPoints) (tcf : TrackingCopy)
    (e : ProtocolUpgradeError)
    (hs : u.store_contract tc h name eps = (tcf, some e)) :
    tcf.buffer = tc.buffer ∧ tcf.store = tc.store ∧ tcf.badKeys = tc.badKeys ∧
    (tcf.effects = tc.effects ++ [Effect.read (Key.hash h)] ∨
      ∃ pk, tcf.effects = tc.effects ++
        [Effect.read (Key.hash h), Effect.read pk]) :=
  store_contract_error_shape u tc h name eps tcf e hs

/-- One step of the system-contract migration pipeline: pass an earlier
failure through untouched, otherwise migrate this contract. -/
def upgradeStep (u : SystemUpgrader) (ch : ContractHash) (name : String)
    (eps : EntryPoints) :
    TrackingCopy × Option ProtocolUpgradeError →
    TrackingCopy × Option ProtocolUpgradeError
  | (tc, some e) => (tc, some e)
  | (tc, none) => u.store_contract tc ch name eps

/-- C3: upgrade_system_contracts_major_version is the short-circuiting
pipeline that migrates mint, auction, handle-payment and standard-payment
exactly once each, in that fixed order, each with its own entry-point table;
a step whose input already carries an error returns input state and error
unchanged, so after the first per-contract failure no later contract is read
or written and the whole call returns that error. -/
theorem upgrade_system_contracts_in_order (u : SystemUpgrader)
    (tc : TrackingCopy) (mint_hash auction_hash handle_payment_hash
    standard_payment_hash : ContractHash) :
    u.upgrade_system_contracts_major_version tc mint_hash auction_hash
        handle_payment_hash standard_payment_hash =
      upgradeStep u standard_payment_hash STANDARD_PAYMENT
        standard_payment_entry_points
        (upgradeStep u handle_payment_hash HANDLE_PAYMENT
          handle_payment_entry_points
          (upgradeStep u auction_hash AUCTION auction_entry_points
            (upgradeStep u mint_hash MINT mint_entry_points (tc, none)))) ∧
    (∀ (t : TrackingCopy) (e : ProtocolUpgradeError) (ch : ContractHash)
      (name : String) (eps : EntryPoints),
      upgradeStep u ch name eps (t, some e) = (t, some e)) := by
  constructor
  · unfold SystemUpgrader.upgrade_system_contracts_major_version upgradeStep
    cases h1 : u.store_contract tc mint_hash MINT mint_entry_points with
    | mk tc1 e1 =>
      cases e1 with
      | some e => simp [h1]
      | none =>
        cases h2 : u.store_contract tc1 auction_hash AUCTION
            auction_entry_points with
        | mk tc2 e2 =>
          cases e2 with
          | some e => simp [h1, h2]
          | none =>
            cases h3 : u.store_contract tc2 handle_payment_hash HANDLE_PAYMENT
                handle_payment_entry_points with
            | mk tc3 e3 =>
              cases e3 with
              | some e => simp [h1, h2, h3]
              | none =>
                cases h4 : u.store_contract tc3 standard_payment_hash
                    STANDARD_PAYMENT standard_payment_entry_points with
                | mk tc4 e4 =>
                  cases e4 with
                  | some e => simp [h1, h2, h3, h4]
                  | none => simp [h1, h2, h3, h4]
  · intro t e ch name eps
    rfl

/-- C7: rebasing the pre-state root of an upgrade config sets exactly the
pre-state hash and leaves the protocol versions, the activation point, the
five optional economic parameters and the override map unchanged. -/
theorem with_pre_state_hash_frame (cfg : UpgradeConfig) (d : Digest) :
    (cfg.with_pre_state_hash d).pre_state_hash = d ∧
    (cfg.with_pre_state_hash d).current_protocol_version =
      cfg.current_protocol_version ∧
    (cfg.with_pre_state_hash d).new_protocol_version =
      cfg.new_protocol_version ∧
    (cfg.with_pre_state_hash d).activation_point = cfg.activation_point ∧
    (cfg.with_pre_state_hash d).new_validator_slots = cfg.new_validator_slots ∧
    (cfg.with_pre_state_hash d).new_auction_delay = cfg.new_auction_delay ∧
    (cfg.with_pre_state_hash d).new_locked_funds_period_millis =
      cfg.new_locked_funds_period_millis ∧
    (cfg.with_pre_state_hash d).new_round_seigniorage_rate =
      cfg.new_round_seigniorage_rate ∧
    (cfg.with_pre_state_hash d).new_unbonding_delay = cfg.new_unbonding_delay ∧
    (cfg.with_pre_state_hash d).global_state_update = cfg.global_state_update :=
  ⟨rfl, rfl, rfl, rfl, rfl, rfl, rfl, rfl, rfl, rfl⟩

/-- C8: UpgradeConfig is a pure data holder: every accessor of a config built
by UpgradeConfig::new returns exactly the argument it is named after (and, the
embedding being purely functional, reading never mutates the config). -/
theorem upgrade_config_new_accessors (d : Digest)
    (cpv npv : ProtocolVersion) (ap : Option EraId) (vs ad lf : Option Nat)
    (rs : Option (Nat × Nat)) (ud : Option Nat)
    (gsu : List (Key × StoredValue)) :
    (UpgradeConfig.new d cpv npv ap vs ad lf rs ud gsu).pre_state_hash = d ∧
    (UpgradeConfig.new d cpv npv ap vs ad lf rs ud gsu).current_protocol_version = cpv ∧
    (UpgradeConfig.new d cpv npv ap vs ad lf rs ud gsu).new_protocol_version = npv ∧
    (UpgradeConfig.new d cpv npv ap vs ad lf rs ud gsu).activation_point = ap ∧
    (UpgradeConfig.new d cpv npv ap vs ad lf rs ud gsu).new_validator_slots = vs ∧
    (UpgradeConfig.new d cpv npv ap vs ad lf rs ud gsu).new_auction_delay = ad ∧
    (UpgradeConfig.new d cpv npv ap vs ad lf rs ud gsu).new_locked_funds_period_millis = lf ∧
    (UpgradeConfig.new d cpv npv ap vs ad lf rs ud gsu).new_round_seigniorage_rate = rs ∧
    (UpgradeConfig.new d cpv npv ap vs ad lf rs ud gsu).new_unbonding_delay = ud ∧
    (UpgradeConfig.new d cpv npv ap vs ad lf rs ud gsu).global_state_update = gsu :=
  ⟨rfl, rfl, rfl, rfl, rfl, rfl, rfl, rfl, rfl, rfl⟩

/-- C10: dump_era errors exactly when the era's consensus instance is not a
HighwayProtocol, and on success the dump carries the supplied era id and the
era's own start time, start height, fault records, accusations and validator
map (the embedding is purely functional, so the era itself is untouched). -/
theorem dump_era_spec (era : Era) (era_id : EraId) :
    ((∃ msg, EraDump.dump_era era era_id = Except.error msg) ↔
      era.consensus.downcastHighway = none) ∧
    (∀ d, EraDump.dump_era era era_id = Except.ok d →
      d.id = era_id ∧ d.start_time = era.start_time ∧
      d.start_height = era.start_height ∧ d.new_faulty = era.new_faulty ∧
      d.faulty = era.faulty ∧ d.cannot_propose = era.cannot_propose ∧
      d.accusations = era.accusations ∧ d.validators = era.validators) := by
  cases hdc : era.consensus.downcastHighway with
  | none =>
    constructor
    · simp [EraDump.dump_era, hdc]
    · intro d hd
      simp [EraDump.dump_era, hdc] at hd
  | some p =>
    constructor
    · simp [EraDump.dump_era, hdc]
    · intro d hd
      simp only [EraDump.dump_era, hdc] at hd
      obtain rfl := (Except.ok.inj hd).symm
      exact ⟨rfl, rfl, rfl, rfl, rfl, rfl, rfl, rfl⟩

/-
  Concrete fixtures used by the witness theorems: the example scenario of
  spec §8 (contract at hash 5, package at hash 77, upgrading 1.0.0 to 2.0.0).
-/

/-- Concrete pre-upgrade contract stored at Key.hash 5. -/
def wC : Contract := ⟨77, 88, [("access", Key.uref 3)], ⟨["old"]⟩, ⟨1, 0, 0⟩⟩

/-- Concrete pre-upgrade package stored at Key.hash 77. -/
def wP : ContractPackage := ⟨[(1, 5, true)]⟩

/-- Concrete tracking copy over a store holding the contract and package. -/
def wTC : TrackingCopy :=
  ⟨[(Key.hash 5, StoredValue.contract wC),
    (Key.hash 77, StoredValue.contractPackage wP)], [], [], []⟩

/-- Concrete upgrader targeting protocol version 2.0.0. -/
def wU : SystemUpgrader := ⟨⟨2, 0, 0⟩⟩

/-- Concrete tracking copy over an empty store, on which every read misses. -/
def wTCempty : TrackingCopy := ⟨[], [], [], []⟩

/-- Concrete era running a HighwayProtocol instance. -/
def wEra : Era := ⟨ConsensusBox.highway ⟨42⟩, 100, 7, [1], [1, 2], [2], [3], [(1, 50)]⟩

/-- The dump expected for wEra under era id 9. -/
def wDump : EraDump := ⟨9, 100, 7, [1], [1, 2], [2], [3], [(1, 50)]⟩

/-- Witness for C1 at the concrete §8 scenario. -/
theorem store_contract_address_stability_witness :
    wU.store_contract wTC 5 MINT mint_entry_points =
      ((wU.store_contract wTC 5 MINT mint_entry_points).1, none) ∧
    contractAt wTC (Key.hash 5) = some wC ∧
    ∃ nc : Contract,
      alookup (wU.store_contract wTC 5 MINT mint_entry_points).1.buffer
        (Key.hash 5) = some (StoredValue.contract nc) ∧
      Effect.write (Key.hash 5) (StoredValue.contract nc) ∈
        (wU.store_contract wTC 5 MINT mint_entry_points).1.effects ∧
      nc.contract_package_hash = wC.contract_package_hash ∧
      nc.contract_wasm_hash = wC.contract_wasm_hash ∧
      nc.named_keys = wC.named_keys ∧
      nc.entry_points = mint_entry_points ∧
      nc.protocol_version = wU.new_protocol_version :=
  ⟨by decide, by decide,
    store_contract_address_stability wU wTC 5 MINT mint_entry_points
      ((wU.store_contract wTC 5 MINT mint_entry_points).1) wC
      (by decide) (by decide)⟩

/-- Witness for C2 at the concrete §8 scenario. -/
theorem store_contract_version_monotonicity_witness :
    wU.store_contract wTC 5 MINT mint_entry_points =
      ((wU.store_contract wTC 5 MINT mint_entry_points).1, none) ∧
    contractAt wTC (Key.hash 5) = some wC ∧
    packageAt wTC (Key.hash wC.contract_package_hash) = some wP ∧
    ∃ q : ContractPackage,
      wP.disable_contract_version 5 = some q ∧
      alookup (wU.store_contract wTC 5 MINT mint_entry_points).1.buffer
          (Key.hash wC.contract_package_hash) =
        some (StoredValue.contractPackage
          (q.insert_contract_version wU.new_protocol_version.major 5)) ∧
      (∀ m hh b, (m, hh, b) ∈ wP.versions →
        (m, hh, b) ∈ q.versions ∨ (hh = 5 ∧ (m, hh, false) ∈ q.versions)) ∧
      (∀ m b, (m, 5, b) ∈ q.versions → b = false) ∧
      (q.insert_contract_version wU.new_protocol_version.major 5).lookupVersion
        wU.new_protocol_version.major = some (5, true) :=
  ⟨by decide, by decide, by decide,
    store_contract_version_monotonicity wU wTC 5 MINT mint_entry_points
      ((wU.store_contract wTC 5 MINT mint_entry_points).1) wC wP
      (by decide) (by decide) (by decide)⟩

/-- Witness for C6 at the concrete §8 scenario. -/
theorem store_contract_effects_exact_witness :
    wU.store_contract wTC 5 MINT mint_entry_points =
      ((wU.store_contract wTC 5 MINT mint_entry_points).1, none) ∧
    contractAt wTC (Key.hash 5) = some wC ∧
    (Key.hash wC.contract_package_hash ≠ Key.hash 5 ∧
    ∃ nc np : StoredValue,
      (wU.store_contract wTC 5 MINT mint_entry_points).1.effects =
        wTC.effects ++
        [Effect.read (Key.hash 5), Effect.read (Key.hash wC.contract_package_hash),
         Effect.write (Key.hash 5) nc,
         Effect.write (Key.hash wC.contract_package_hash) np] ∧
      (wU.store_contract wTC 5 MINT mint_entry_points).1.buffer =
        aupdate (aupdate wTC.buffer (Key.hash 5) nc)
          (Key.hash wC.contract_package_hash) np ∧
      (wU.store_contract wTC 5 MINT mint_entry_points).1.store = wTC.store ∧
      (wU.store_contract wTC 5 MINT mint_entry_points).1.badKeys = wTC.badKeys) :=
  ⟨by decide, by decide,
    store_contract_effects_exact wU wTC 5 MINT mint_entry_points
      ((wU.store_contract wTC 5 MINT mint_entry_points).1) wC
      (by decide) (by decide)⟩

/-- Witness for C9 on the empty store, where the contract read misses. -/
theorem store_contract_error_no_write_witness :
    wU.store_contract wTCempty 5 MINT mint_entry_points =
      ((wU.store_contract wTCempty 5 MINT mint_entry_points).1,
        some (ProtocolUpgradeError.unableToRetrieveSystemContract MINT)) ∧
    ((wU.store_contract wTCempty 5 MINT mint_entry_points).1.buffer =
        wTCempty.buffer ∧
      (wU.store_contract wTCempty 5 MINT mint_entry_points).1.store =
        wTCempty.store ∧
      (wU.store_contract wTCempty 5 MINT mint_entry_points).1.badKeys =
        wTCempty.badKeys ∧
      ((wU.store_contract wTCempty 5 MINT mint_entry_points).1.effects =
          wTCempty.effects ++ [Effect.read (Key.hash 5)] ∨
        ∃ pk, (wU.store_contract wTCempty 5 MINT mint_entry_points).1.effects =
          wTCempty.effects ++ [Effect.read (Key.hash 5), Effect.read pk])) :=
  ⟨by decide,
    store_contract_error_no_write wU wTCempty 5 MINT mint_entry_points
      ((wU.store_contract wTCempty 5 MINT mint_entry_points).1)
      (ProtocolUpgradeError.unableToRetrieveSystemContract MINT) (by decide)⟩

/-- Witness for C10 at the concrete highway era. -/
theorem dump_era_spec_witness :
    EraDump.dump_era wEra 9 = Except.ok wDump ∧
    (wDump.id = 9 ∧ wDump.start_time = wEra.start_time ∧
      wDump.start_height = wEra.start_height ∧
      wDump.new_faulty = wEra.new_faulty ∧ wDump.faulty = wEra.faulty ∧
      wDump.cannot_propose = wEra.cannot_propose ∧
      wDump.accusations = wEra.accusations ∧
      wDump.validators = wEra.validators) :=
  ⟨rfl, (dump_era_spec wEra 9).2 wDump rfl⟩

end Casper
